import Mathlib

/-!
Shallow embedding of the core of an early rav1e AV1 encoder (src/lib.rs) and
proofs about the claims of its specification.

Conventions used throughout:
 - Rust `usize` arithmetic is modelled on `Nat`, with an explicit `% 2 ^ 64`
   wherever the source can wrap; theorems that assume no overflow carry the
   corresponding hypotheses.
 - Rust panics (failed `assert!`, arithmetic underflow in debug builds,
   `unimplemented!`) are modelled by `Option`: `none` means the function
   aborts.
 - Code of this repository that lives in modules not present under src/
   (partition.rs, transform.rs, context.rs, plane.rs, predict.rs, ec.rs,
   quantize.rs) is either modelled from the specification (enumerations and
   their geometry, marked `Modelled from the spec:`) or abstracted into
   universally quantified function parameters when lib.rs merely calls it.
-/

set_option maxHeartbeats 1000000

namespace Rav1e

/-- Frame type, from src/lib.rs `enum FrameType { KEY, INTER, INTRA_ONLY, S }`. -/
inductive FrameType
  | KEY
  | INTER
  | INTRA_ONLY
  | S
deriving DecidableEq

/-- Reference mode, from src/lib.rs `enum ReferenceMode`. -/
inductive ReferenceMode
  | SINGLE
  | COMPOUND
  | SELECT
deriving DecidableEq

/-- Modelled from the spec: `GlobalMVMode ∈ {IDENTITY, TRANSLATION, ROTZOOM, AFFINE}`
(the enum lives in partition.rs, which is not under src/). -/
inductive GlobalMVMode
  | IDENTITY
  | TRANSLATION
  | ROTZOOM
  | AFFINE
deriving DecidableEq

/-- Modelled from the spec: the AV1 block sizes (§3 BlockSize), declared in
partition.rs (not under src/) in standard AV1 order; the derived Rust
`PartialOrd` compares declaration order, which `toIdx` reproduces. -/
inductive BlockSize
  | BLOCK_4X4
  | BLOCK_4X8
  | BLOCK_8X4
  | BLOCK_8X8
  | BLOCK_8X16
  | BLOCK_16X8
  | BLOCK_16X16
  | BLOCK_16X32
  | BLOCK_32X16
  | BLOCK_32X32
  | BLOCK_32X64
  | BLOCK_64X32
  | BLOCK_64X64
deriving DecidableEq

/-- Declaration index of a block size (the value Rust's derived ordering compares). -/
def BlockSize.toIdx : BlockSize → Nat
  | .BLOCK_4X4 => 0
  | .BLOCK_4X8 => 1
  | .BLOCK_8X4 => 2
  | .BLOCK_8X8 => 3
  | .BLOCK_8X16 => 4
  | .BLOCK_16X8 => 5
  | .BLOCK_16X16 => 6
  | .BLOCK_16X32 => 7
  | .BLOCK_32X16 => 8
  | .BLOCK_32X32 => 9
  | .BLOCK_32X64 => 10
  | .BLOCK_64X32 => 11
  | .BLOCK_64X64 => 12

instance : LE BlockSize := ⟨fun a b => a.toIdx ≤ b.toIdx⟩

instance : LT BlockSize := ⟨fun a b => a.toIdx < b.toIdx⟩

instance (a b : BlockSize) : Decidable (a ≤ b) :=
  inferInstanceAs (Decidable (a.toIdx ≤ b.toIdx))

instance (a b : BlockSize) : Decidable (a < b) :=
  inferInstanceAs (Decidable (a.toIdx < b.toIdx))

/-- Modelled from the spec: block width in 4x4 mode-info units (§3, glossary "MI unit"). -/
def BlockSize.width_mi : BlockSize → Nat
  | .BLOCK_4X4 | .BLOCK_4X8 => 1
  | .BLOCK_8X4 | .BLOCK_8X8 | .BLOCK_8X16 => 2
  | .BLOCK_16X8 | .BLOCK_16X16 | .BLOCK_16X32 => 4
  | .BLOCK_32X16 | .BLOCK_32X32 | .BLOCK_32X64 => 8
  | .BLOCK_64X32 | .BLOCK_64X64 => 16

/-- Modelled from the spec: block height in 4x4 mode-info units. -/
def BlockSize.height_mi : BlockSize → Nat
  | .BLOCK_4X4 | .BLOCK_8X4 => 1
  | .BLOCK_4X8 | .BLOCK_8X8 | .BLOCK_16X8 => 2
  | .BLOCK_8X16 | .BLOCK_16X16 | .BLOCK_32X16 => 4
  | .BLOCK_16X32 | .BLOCK_32X32 | .BLOCK_64X32 => 8
  | .BLOCK_32X64 | .BLOCK_64X64 => 16

/-- Modelled from the spec: transform sizes 4x4 … 32x32 (§3 TxSize). -/
inductive TxSize
  | TX_4X4
  | TX_8X8
  | TX_16X16
  | TX_32X32
deriving DecidableEq

/-- Modelled from the spec: transform width in 4x4 mode-info units. -/
def TxSize.width_mi : TxSize → Nat
  | .TX_4X4 => 1
  | .TX_8X8 => 2
  | .TX_16X16 => 4
  | .TX_32X32 => 8

/-- Modelled from the spec: transform height in 4x4 mode-info units. -/
def TxSize.height_mi : TxSize → Nat := TxSize.width_mi

/-- Modelled from the spec: transform width in pixels. -/
def TxSize.width (t : TxSize) : Nat := 4 * t.width_mi

/-- Modelled from the spec: transform height in pixels. -/
def TxSize.height (t : TxSize) : Nat := 4 * t.height_mi

/-- Modelled from the spec: number of pixels in a transform block. -/
def TxSize.area (t : TxSize) : Nat := t.width * t.height

/-- Modelled from the spec: transform kernel identifiers (§3 TxType); only
DCT_DCT is distinguished by lib.rs, the rest stand for the remaining kernels. -/
inductive TxType
  | DCT_DCT
  | ADST_DCT
  | DCT_ADST
  | ADST_ADST
  | IDTX
deriving DecidableEq

/-- Modelled from the spec: the extended transform set types of transform.rs
(not under src/), in declaration order, EXT_TX_SET_DCTONLY smallest. -/
inductive TxSetType
  | EXT_TX_SET_DCTONLY
  | EXT_TX_SET_DCT_IDTX
  | EXT_TX_SET_DTT4_IDTX
  | EXT_TX_SET_DTT4_IDTX_1DDCT
  | EXT_TX_SET_DTT9_IDTX_1DDCT
  | EXT_TX_SET_ALL16
deriving DecidableEq

/-- Declaration index of a transform-set type (compared by Rust's derived ordering). -/
def TxSetType.toIdx : TxSetType → Nat
  | .EXT_TX_SET_DCTONLY => 0
  | .EXT_TX_SET_DCT_IDTX => 1
  | .EXT_TX_SET_DTT4_IDTX => 2
  | .EXT_TX_SET_DTT4_IDTX_1DDCT => 3
  | .EXT_TX_SET_DTT9_IDTX_1DDCT => 4
  | .EXT_TX_SET_ALL16 => 5

instance : LT TxSetType := ⟨fun a b => a.toIdx < b.toIdx⟩

instance (a b : TxSetType) : Decidable (a < b) :=
  inferInstanceAs (Decidable (a.toIdx < b.toIdx))

/-- Modelled from the spec: prediction modes (§3 PredictionMode); the claims
treat the concrete mode as opaque, so a representative subset suffices. -/
inductive PredictionMode
  | DC_PRED
  | V_PRED
  | H_PRED
  | SMOOTH_PRED
  | PAETH_PRED
  | NEARESTMV
  | NEARMV
deriving DecidableEq

/-- Modelled from the spec: partition types (§3, glossary "Partition"); NONE,
HORZ, VERT, SPLIT in AV1 declaration order with INVALID last, as partition.rs
declares them (Rust's derived ordering compares declaration order). -/
inductive PartitionType
  | PARTITION_NONE
  | PARTITION_HORZ
  | PARTITION_VERT
  | PARTITION_SPLIT
  | PARTITION_INVALID
deriving DecidableEq

/-- Declaration index of a partition type. -/
def PartitionType.toIdx : PartitionType → Nat
  | .PARTITION_NONE => 0
  | .PARTITION_HORZ => 1
  | .PARTITION_VERT => 2
  | .PARTITION_SPLIT => 3
  | .PARTITION_INVALID => 4

instance : LE PartitionType := ⟨fun a b => a.toIdx ≤ b.toIdx⟩

instance : LT PartitionType := ⟨fun a b => a.toIdx < b.toIdx⟩

instance (a b : PartitionType) : Decidable (a ≤ b) :=
  inferInstanceAs (Decidable (a.toIdx ≤ b.toIdx))

instance (a b : PartitionType) : Decidable (a < b) :=
  inferInstanceAs (Decidable (a.toIdx < b.toIdx))

/-- Block offset in 4x4 mode-info units (§3 BlockOffset; declared in partition.rs). -/
structure BlockOffset where
  x : Nat
  y : Nat
deriving DecidableEq

/-- The modulus of Rust `usize` on the 64-bit targets rav1e supports. -/
def USIZE_MOD : Nat := 2 ^ 64

/-- Bitwise NOT on usize: `!x` flips the 64 bits of x. -/
def usizeNot (x : Nat) : Nat := (USIZE_MOD - 1) ^^^ x

/-- From src/lib.rs `impl Fixed for usize`: `self & !((1 << n) - 1)`. -/
def floor_log2 (s n : Nat) : Nat := s &&& usizeNot ((1 <<< n) - 1)

/-- From src/lib.rs: `(self + (1 << n) - 1).floor_log2(n)`; the usize addition
wraps mod 2^64 (release semantics; debug builds would panic on overflow). -/
def ceil_log2 (s n : Nat) : Nat := floor_log2 ((s + ((1 <<< n) - 1)) % USIZE_MOD) n

/-- From src/lib.rs: `self.ceil_log2(n)`. -/
def align_power_of_two (s n : Nat) : Nat := ceil_log2 s n

/-- From src/lib.rs: `(self + (1 << n) - 1) >> n`. -/
def align_power_of_two_and_shift (s n : Nat) : Nat :=
  ((s + ((1 <<< n) - 1)) % USIZE_MOD) >>> n

/-- Per-frame read-only configuration, from src/lib.rs `struct FrameInvariants`.
The fixed-size array `globalmv_transformation_type: [GlobalMVMode; ALTREF_FRAME + 1]`
is modelled as a total function on indices. -/
structure FrameInvariants where
  qindex : Nat
  speed : Nat
  width : Nat
  height : Nat
  padded_w : Nat
  padded_h : Nat
  sb_width : Nat
  sb_height : Nat
  w_in_b : Nat
  h_in_b : Nat
  number : Nat
  show_frame : Bool
  error_resilient : Bool
  intra_only : Bool
  allow_high_precision_mv : Bool
  frame_type : FrameType
  show_existing_frame : Bool
  use_reduced_tx_set : Bool
  reference_mode : ReferenceMode
  use_prev_frame_mvs : Bool
  min_partition_size : BlockSize
  globalmv_transformation_type : Nat → GlobalMVMode

/-- From src/lib.rs `FrameInvariants::new`. -/
def FrameInvariants.new (width height qindex speed : Nat) : FrameInvariants :=
  let min_partition_size :=
    if speed ≤ 1 then BlockSize.BLOCK_4X4
    else if speed ≤ 2 then BlockSize.BLOCK_8X8
    else if speed ≤ 3 then BlockSize.BLOCK_16X16
    else BlockSize.BLOCK_32X32
  let use_reduced_tx_set := decide (speed > 1)
  { qindex := qindex
    speed := speed
    width := width
    height := height
    padded_w := align_power_of_two width 3
    padded_h := align_power_of_two height 3
    sb_width := align_power_of_two_and_shift width 6
    sb_height := align_power_of_two_and_shift height 6
    w_in_b := 2 * align_power_of_two_and_shift width 3
    h_in_b := 2 * align_power_of_two_and_shift height 3
    number := 0
    show_frame := true
    error_resilient := true
    intra_only := false
    allow_high_precision_mv := true
    frame_type := FrameType.KEY
    show_existing_frame := false
    use_reduced_tx_set := use_reduced_tx_set
    reference_mode := ReferenceMode.SINGLE
    use_prev_frame_mvs := false
    min_partition_size := min_partition_size
    globalmv_transformation_type := fun _ => GlobalMVMode.IDENTITY }

/-- From src/lib.rs `struct Sequence`. -/
structure Sequence where
  profile : Nat

/-- From src/lib.rs `Sequence::new`. -/
def Sequence.new : Sequence := { profile := 0 }

/-- The bits appended by `BitWriter::<BE>::write(n, v)`: the low n bits of v,
most significant first (bitstream_io big-endian bit order). -/
def beBits (n v : Nat) : List Bool := (List.range n).map (fun i => v.testBit (n - 1 - i))

/-- `BitWriter::byte_align`: append zero bits up to the next byte boundary. -/
def byteAlignBits (l : List Bool) : List Bool :=
  l ++ List.replicate ((8 - l.length % 8) % 8) false

/-- A failed Rust `assert!` aborts; `none` models the abort. -/
def assertP (p : Prop) [Decidable p] : Option Unit := if p then some () else none

/-- Bit length of v knowing v < 2^k: the largest i + 1 with 2^i ≤ v, i < k,
and 0 for v = 0, by structural descent over the k candidate positions. -/
def bitLenAux : Nat → Nat → Nat
  | 0, _ => 0
  | k + 1, v => if 1 <<< k ≤ v then k + 1 else bitLenAux k v

/-- Bit length of the low 32 bits of x, i.e. `32 - (x as u32).leading_zeros()`
(a u32 with leading_zeros z has bit length 32 - z). -/
def u32_bits (x : Nat) : Nat := bitLenAux 32 (x % 2 ^ 32)

/-- From src/lib.rs `write_frame_size`: asserts `width_bits <= 16` and
`height_bits <= 16`, then writes the two 4-bit length fields (whose `- 1`
underflows, hence aborts, when a bit count is 0) and the sizes themselves
(`(fi.width - 1) as u16` truncates to 16 bits). -/
def write_frame_size (fi : FrameInvariants) : Option (List Bool) := do
  let width_bits := u32_bits fi.width
  let height_bits := u32_bits fi.height
  let _ ← assertP (width_bits ≤ 16)
  let _ ← assertP (height_bits ≤ 16)
  let _ ← assertP (width_bits ≠ 0)
  let _ ← assertP (height_bits ≠ 0)
  pure (beBits 4 (width_bits - 1) ++ beBits 4 (height_bits - 1) ++
        beBits width_bits ((fi.width - 1) % 2 ^ 16) ++
        beBits height_bits ((fi.height - 1) % 2 ^ 16))

/-- From src/lib.rs `write_sequence_header`: frame size then three zero bits. -/
def write_sequence_header (fi : FrameInvariants) : Option (List Bool) :=
  (write_frame_size fi).map (fun b => b ++ beBits 1 0 ++ beBits 1 0 ++ beBits 1 0)

/-- From src/lib.rs `write_bitdepth_colorspace_sampling`: 1+1+4+1 zero bits. -/
def write_bitdepth_colorspace_sampling : List Bool :=
  beBits 1 0 ++ beBits 1 0 ++ beBits 4 0 ++ beBits 1 0

/-- From src/lib.rs `write_frame_setup`: two false bits. -/
def write_frame_setup : List Bool := [false, false]

/-- From src/lib.rs `write_loop_filter`: 6+6+3 zero bits and a false bit. -/
def write_loop_filter : List Bool := beBits 6 0 ++ beBits 6 0 ++ beBits 3 0 ++ [false]

/-- From src/lib.rs `write_cdef`: 2+2 zero bits then one 6+6 strength pair. -/
def write_cdef : List Bool := beBits 2 0 ++ beBits 2 0 ++ beBits 6 0 ++ beBits 6 0

/-- From src/lib.rs: `const LAST_FRAME: usize = 1`. -/
def LAST_FRAME : Nat := 1

/-- From src/lib.rs: `const ALTREF_FRAME: usize = 7`. -/
def ALTREF_FRAME : Nat := 7

/-- One iteration of the global-motion loop of `write_uncompressed_header`
(lib.rs:484-512). `subexp` abstracts ec.rs `BCodeWriter::write_s_refsubexpfin`
(not under src/); both mv components are the literal 0, so the shifted
arguments passed to it are 0. ROTZOOM and AFFINE hit `unimplemented!()`. -/
def globalmv_entry (subexp : Nat → Nat → Int → Int → List Bool) (fi : FrameInvariants)
    (mode : GlobalMVMode) : Option (List Bool) :=
  let header : List Bool :=
    [decide (mode ≠ GlobalMVMode.IDENTITY)] ++
    (if mode ≠ GlobalMVMode.IDENTITY then
       [decide (mode = GlobalMVMode.ROTZOOM)] ++
       (if mode ≠ GlobalMVMode.ROTZOOM then [decide (mode = GlobalMVMode.TRANSLATION)] else [])
     else [])
  match mode with
  | GlobalMVMode.IDENTITY => some header
  | GlobalMVMode.TRANSLATION =>
      let bits : Nat := 12 - 6 + 3 - (if fi.allow_high_precision_mv then 0 else 1)
      some (header ++ subexp ((1 <<< bits) + 1) 3 0 0 ++ subexp ((1 <<< bits) + 1) 3 0 0)
  | GlobalMVMode.ROTZOOM => none
  | GlobalMVMode.AFFINE => none

/-- The global-motion section: `for i in LAST_FRAME..ALTREF_FRAME+1` over the
per-reference modes (lib.rs:484). -/
def globalmv_bits (subexp : Nat → Nat → Int → Int → List Bool) (fi : FrameInvariants) :
    Option (List Bool) :=
  (List.range (ALTREF_FRAME + 1 - LAST_FRAME)).foldl
    (fun acc i => do
      let l ← acc
      let e ← globalmv_entry subexp fi (fi.globalmv_transformation_type (LAST_FRAME + i))
      pure (l ++ e))
    (some [])

/-- Bits of `write_uncompressed_header` from the frame marker (lib.rs:397) up
to, but not including, the reduced-tx bit (lib.rs:481), on the path where
`show_existing_frame` is false (the caller handles the other path); `none`
models a failed assertion. The split at the reduced-tx bit is a textual
factoring of the straight-line source, nothing is reordered. -/
def header_bits_before_reduced_tx (sequence : Sequence) (fi : FrameInvariants) :
    Option (List Bool) := do
  let bw0 := beBits 2 2 ++ beBits 2 sequence.profile
  let bw1 := bw0 ++ [false] ++ [decide (fi.frame_type = FrameType.INTER)] ++ [fi.show_frame]
  let _ ← assertP (¬ ((fi.frame_type = FrameType.KEY ∨ fi.frame_type = FrameType.INTRA_ONLY)
      ∧ ¬ fi.intra_only))
  let bw2 ←
    if fi.frame_type ≠ FrameType.KEY then
      if fi.show_frame then do
        let _ ← assertP (¬ fi.intra_only)
        pure bw1
      else pure (bw1 ++ [fi.intra_only])
    else pure bw1
  let bw3 := bw2 ++ [fi.error_resilient]
  let bw4 ←
    if fi.frame_type = FrameType.KEY ∨ fi.intra_only then
      (write_sequence_header fi).map (fun b => bw3 ++ b)
    else pure bw3
  let bw5 := bw4 ++ [false]
  let bw6 :=
    if fi.frame_type = FrameType.KEY then
      bw5 ++ write_bitdepth_colorspace_sampling ++ beBits 1 0 ++ write_frame_setup
    else if fi.intra_only then
      bw5 ++ write_bitdepth_colorspace_sampling ++ beBits 1 0 ++ beBits 8 0 ++ write_frame_setup
    else
      bw5 ++ beBits 8 0 ++ beBits 3 0 ++ beBits 3 0 ++ beBits 3 0 ++ beBits 3 0 ++
        beBits 3 0 ++ beBits 3 0 ++ beBits 3 0 ++ write_frame_setup ++
        [fi.allow_high_precision_mv] ++ [false] ++ beBits 2 0 ++
        (if ¬ fi.intra_only ∧ ¬ fi.error_resilient then [false] else [])
  let bw7 := bw6 ++ beBits 3 0 ++ write_loop_filter ++ beBits 8 fi.qindex ++
    [false, false, false, false, false, false] ++ write_cdef ++ beBits 6 0 ++ [false]
  let bw8 := bw7 ++ (if ¬ fi.intra_only then [false] else [])
  let bw9 := bw8 ++
    (if ¬ fi.intra_only ∧ fi.reference_mode ≠ ReferenceMode.SINGLE then [false] else [])
  pure bw9

/-- Bits of `write_uncompressed_header` after the reduced-tx bit: global
motion (skipped when intra_only), uniform tile spacing, the per-dimension
tile bits for frames larger than 64, and `tile_size_bytes = 3`. -/
def header_bits_after_reduced_tx (subexp : Nat → Nat → Int → Int → List Bool)
    (fi : FrameInvariants) : Option (List Bool) := do
  let gm ← if ¬ fi.intra_only then globalmv_bits subexp fi else pure []
  pure (gm ++ [true] ++
        (if fi.width > 64 then beBits 1 0 else []) ++
        (if fi.height > 64 then beBits 1 0 else []) ++
        beBits 2 3)

/-- From src/lib.rs `write_uncompressed_header`: both return paths call
`byte_align` immediately before returning, so the alignment is applied to
each path's accumulated bits. -/
def write_uncompressed_header (subexp : Nat → Nat → Int → Int → List Bool)
    (sequence : Sequence) (fi : FrameInvariants) : Option (List Bool) :=
  if fi.show_existing_frame then
    some (byteAlignBits (beBits 2 2 ++ beBits 2 sequence.profile ++ [true] ++ beBits 3 0))
  else do
    let pre ← header_bits_before_reduced_tx sequence fi
    let post ← header_bits_after_reduced_tx subexp fi
    pure (byteAlignBits (pre ++ [fi.use_reduced_tx_set] ++ post))

/-- Bitstream content of `encode_frame` (lib.rs:918): the uncompressed header,
followed by the tile bytes only when the frame is not show_existing. `tile`
abstracts `encode_tile`'s output (its trailing sentinel byte included); the
rec-plane copy performed for show_existing frames contributes no bits. -/
def encode_frame_bits (subexp : Nat → Nat → Int → Int → List Bool) (tile : List Bool)
    (sequence : Sequence) (fi : FrameInvariants) : Option (List Bool) := do
  let header ← write_uncompressed_header subexp sequence fi
  if fi.show_existing_frame then pure header
  else pure (header ++ tile)

/-- Modelled from the spec: a pixel plane (plane.rs is not under src/); the
claims need only the sample values, viewed as a total function. -/
structure Plane where
  data : Nat → Nat → Int

/-- A per-plane pixel offset (§3 PlaneOffset; declared in plane.rs). -/
structure PlaneOffset where
  x : Nat
  y : Nat
deriving DecidableEq

/-- A plane slice abstracted to its sample accessor `p(x, y)` (plane.rs is not
under src/). -/
abbrev PlaneSlice := Nat → Nat → Int

/-- The slice of a plane rooted at po: `slice(po).p(i, j)` reads po + (i, j). -/
def Plane.slice (pl : Plane) (po : PlaneOffset) : PlaneSlice :=
  fun i j => pl.data (po.x + i) (po.y + j)

/-- From src/lib.rs `diff`: `dst[j*width + i] = src1.p(i, j) - src2.p(i, j)`,
row-major over the width x height window. -/
def diff (src1 src2 : PlaneSlice) (width height : Nat) : List Int :=
  (List.range height).flatMap (fun j => (List.range width).map (fun i => src1 i j - src2 i j))

/-- The kernels that src/lib.rs `encode_tx_block` sequences but that live in
modules not under src/ (predict.rs, transform.rs, quantize.rs, context.rs);
lib.rs only composes them, so they are universally quantified here. `CW` is
the ContextWriter state type. -/
structure TxKernels (CW : Type) where
  predict : PredictionMode → TxSize → PlaneOffset → Plane → Plane
  forward_transform : List Int → Nat → TxSize → TxType → List Int
  quantize_in_place : Nat → List Int → TxSize → List Int
  write_coeffs_lv_map :
    CW → Nat → BlockOffset → List Int → TxSize → TxType → BlockSize → Nat → Nat → Bool → CW
  dequantize : Nat → List Int → TxSize → List Int
  inverse_transform_add : List Int → PlaneOffset → TxSize → TxType → Plane → Plane

/-- The state `encode_tx_block` mutates: the reconstruction plane it writes
and the context writer it codes coefficients through. -/
structure TxBlockResult (CW : Type) where
  rec_plane : Plane
  cw : CW

/-- From src/lib.rs `encode_tx_block`: predict into rec at po; if skip,
return; else compute the residual with `diff`, forward-transform, quantize,
entropy-code the coefficients, dequantize and inverse-transform-add into rec. -/
def encode_tx_block {CW : Type} (K : TxKernels CW) (fi : FrameInvariants)
    (inputPlane recPlane : Plane) (cw : CW) (p : Nat) (bo : BlockOffset)
    (mode : PredictionMode) (tx_size : TxSize) (tx_type : TxType)
    (plane_bsize : BlockSize) (po : PlaneOffset) (skip : Bool)
    (xdec ydec : Nat) : TxBlockResult CW :=
  let rec1 := K.predict mode tx_size po recPlane
  if skip then { rec_plane := rec1, cw := cw }
  else
    let residual := diff (inputPlane.slice po) (rec1.slice po) tx_size.width tx_size.height
    let coeffs := K.forward_transform residual tx_size.width tx_size tx_type
    let coeffs2 := K.quantize_in_place fi.qindex coeffs tx_size
    let cw2 := K.write_coeffs_lv_map cw p bo coeffs2 tx_size tx_type plane_bsize xdec ydec
      fi.use_reduced_tx_set
    let rcoeffs := K.dequantize fi.qindex coeffs2 tx_size
    let rec2 := K.inverse_transform_add rcoeffs po tx_size tx_type rec1
    { rec_plane := rec2, cw := cw2 }

/-- One `encode_tx_block` call issued by `write_tx_blocks`: plane index, the
loop indices, and the mode-info block offset passed. The offsets are taken in
ℤ: the usize subtraction of the chroma `-1` correction would panic on
underflow in a debug build, which in-frame chroma positions never reach. -/
structure TxCall where
  p : Nat
  bxi : Nat
  byi : Nat
  x : Int
  y : Int
deriving DecidableEq

/-- From src/lib.rs `write_tx_blocks` (lines 653-658): the chroma transform
size chosen from the luma block size (comment in source: valid for 4:2:0). -/
def uv_tx_size_of (bsize : BlockSize) : TxSize :=
  match bsize with
  | BlockSize.BLOCK_4X4 | BlockSize.BLOCK_8X8 => TxSize.TX_4X4
  | BlockSize.BLOCK_16X16 => TxSize.TX_8X8
  | BlockSize.BLOCK_32X32 => TxSize.TX_16X16
  | _ => TxSize.TX_32X32

/-- From src/lib.rs `write_tx_blocks`, reduced to the sequence of
`encode_tx_block` invocations and the block offsets each receives (the pixel
offsets po and the uv transform type are orthogonal to every claim and are
omitted; `has_chroma` is context.rs code not under src/, abstracted as a
parameter). -/
def write_tx_blocks_calls (has_chroma : BlockOffset → BlockSize → Nat → Nat → Bool)
    (bo : BlockOffset) (bsize : BlockSize) (tx_size : TxSize) (xdec ydec : Nat) :
    List TxCall :=
  let bw := bsize.width_mi / tx_size.width_mi
  let bh := bsize.height_mi / tx_size.height_mi
  let luma := (List.range bh).flatMap (fun byi => (List.range bw).map (fun bxi =>
    { p := 0, bxi := bxi, byi := byi,
      x := ((bo.x + bxi * tx_size.width_mi : Nat) : Int),
      y := ((bo.y + byi * tx_size.height_mi : Nat) : Int) }))
  let uv_tx_size := uv_tx_size_of bsize
  let bw_uv0 := (bw * tx_size.width_mi) >>> xdec
  let bh_uv0 := (bh * tx_size.height_mi) >>> ydec
  let bumped := (decide (bw_uv0 = 0) || decide (bh_uv0 = 0)) && has_chroma bo bsize xdec ydec
  let bw_uv1 := if bumped then 1 else bw_uv0
  let bh_uv1 := if bumped then 1 else bh_uv0
  let bw_uv := bw_uv1 / uv_tx_size.width_mi
  let bh_uv := bh_uv1 / uv_tx_size.height_mi
  let chroma :=
    if 0 < bw_uv ∧ 0 < bh_uv then
      (List.range 2).flatMap (fun pi =>
        (List.range bh_uv).flatMap (fun byi => (List.range bw_uv).map (fun bxi =>
          { p := pi + 1, bxi := bxi, byi := byi,
            x := (bo.x : Int) + (((bxi * uv_tx_size.width_mi) <<< xdec : Nat) : Int) -
                 (if bw * tx_size.width_mi = 1 then 1 else 0),
            y := (bo.y : Int) + (((byi * uv_tx_size.height_mi) <<< ydec : Nat) : Int) -
                 (if bh * tx_size.height_mi = 1 then 1 else 0) })))
    else []
  luma ++ chroma

/-- From src/lib.rs `encode_block` (lines 612-617): the TX_MODE_LARGEST rule. -/
def encode_block_tx_size (bsize : BlockSize) : TxSize :=
  match bsize with
  | BlockSize.BLOCK_4X4 => TxSize.TX_4X4
  | BlockSize.BLOCK_8X8 => TxSize.TX_8X8
  | BlockSize.BLOCK_16X16 => TxSize.TX_16X16
  | _ => TxSize.TX_32X32

/-- From src/lib.rs `encode_block` (lines 619-627): the luma transform-type
decision. `get_ext_tx_set_type` (transform.rs) and the value that
`rdo_tx_type_decision` (rdo.rs) would return live outside src/ and enter as
parameters; lib.rs contributes exactly the gate modelled here. -/
def encode_block_tx_type (get_ext_tx_set_type : TxSize → Bool → Bool → TxSetType)
    (rdo_tx_type : TxType) (fi : FrameInvariants) (bsize : BlockSize)
    (is_inter : Bool) : TxType :=
  let tx_size := encode_block_tx_size bsize
  let tx_set_type := get_ext_tx_set_type tx_size is_inter fi.use_reduced_tx_set
  if TxSetType.EXT_TX_SET_DCTONLY < tx_set_type ∧ fi.speed ≤ 3 then rdo_tx_type
  else TxType.DCT_DCT

/-- The observable context-writer actions of the partition walkers that the
claims speak about. -/
inductive WalkAction
  | write_partition (p : PartitionType)
  | encode_leaf
  | recurse_split
  | recode_leaf
  | update_ctx
deriving DecidableEq

/-- Outcome of one `encode_partition_bottomup` invocation. -/
structure BottomupResult where
  partition : PartitionType
  actions : List WalkAction
  rd_cost : Rat
deriving DecidableEq

/-- Stand-in for `std::f64::MAX`. The walkers only add and order-compare rd
costs, so f64 is modelled by ℚ; no claim concerns the numeric values. -/
def F64_MAX : Rat := 2 ^ 1024

/-- From src/lib.rs `encode_partition_bottomup`, one invocation: the
rate-distortion outcomes that come from rdo.rs (`mode_rd`) and from the four
recursive calls (`c1..c4`) enter as oracle parameters; the control flow, the
shadowed `partition` variable and the emitted actions follow the source
statement by statement. -/
def encode_partition_bottomup (cols rows w_in_b h_in_b : Nat)
    (min_partition_size : BlockSize) (bsize : BlockSize) (bo : BlockOffset)
    (mode_rd c1 c2 c3 c4 : Rat) : BottomupResult :=
  if cols ≤ bo.x ∨ rows ≤ bo.y then
    { partition := PartitionType.PARTITION_NONE, actions := [], rd_cost := F64_MAX }
  else
    let bs := bsize.width_mi
    let must_split := w_in_b < bo.x + bs ∨ h_in_b < bo.y + bs ∨
      BlockSize.BLOCK_64X64 ≤ bsize
    let can_split := min_partition_size < bsize ∨ must_split
    -- the mutable (partition, actions, rd_cost) triple, threaded explicitly
    let st1 : PartitionType × List WalkAction × Rat :=
      if ¬ must_split then
        (PartitionType.PARTITION_NONE,
         (if BlockSize.BLOCK_8X8 ≤ bsize then
            [WalkAction.write_partition PartitionType.PARTITION_NONE] else []) ++
           [WalkAction.encode_leaf],
         mode_rd)
      else (PartitionType.PARTITION_NONE, [], F64_MAX)
    let st2 : PartitionType × List WalkAction × Rat :=
      if can_split then
        let nosplit_rd_cost := st1.2.2
        let split_rd_cost := c1 + c2 + c3 + c4
        let split_actions :=
          (if BlockSize.BLOCK_8X8 ≤ bsize then
             [WalkAction.write_partition PartitionType.PARTITION_SPLIT] else []) ++
            [WalkAction.recurse_split]
        if ¬ must_split ∧ nosplit_rd_cost < split_rd_cost then
          (PartitionType.PARTITION_NONE,
           st1.2.1 ++ split_actions ++
             (if BlockSize.BLOCK_8X8 ≤ bsize then
                [WalkAction.write_partition PartitionType.PARTITION_NONE] else []) ++
             [WalkAction.recode_leaf],
           split_rd_cost)
        else (PartitionType.PARTITION_SPLIT, st1.2.1 ++ split_actions, split_rd_cost)
      else st1
    { partition := st2.1,
      actions := st2.2.1 ++
        (if BlockSize.BLOCK_8X8 ≤ bsize ∧
            (bsize = BlockSize.BLOCK_8X8 ∨ st2.1 ≠ PartitionType.PARTITION_SPLIT) then
          [WalkAction.update_ctx] else []),
      rd_cost := st2.2.2 }

/-- Outcome of one `encode_partition_topdown` invocation. -/
structure TopdownResult where
  partition : PartitionType
  actions : List WalkAction
deriving DecidableEq

/-- From src/lib.rs `encode_partition_topdown`, one invocation: the partition
decision rdo.rs would return enters as the oracle `rdo_part`; the asserts of
the source (square bsize, valid partition range, the unreachable match arm)
abort, modelled by none. The early out-of-grid return yields no actions, with
PARTITION_INVALID marking that no partition was committed. -/
def encode_partition_topdown (cols rows w_in_b h_in_b : Nat)
    (min_partition_size : BlockSize) (bsize : BlockSize) (bo : BlockOffset)
    (rdo_part : PartitionType) : Option TopdownResult := do
  if cols ≤ bo.x ∨ rows ≤ bo.y then
    pure { partition := PartitionType.PARTITION_INVALID, actions := [] }
  else do
    let bs := bsize.width_mi
    let must_split := w_in_b < bo.x + bs ∨ h_in_b < bo.y + bs ∨
      BlockSize.BLOCK_64X64 ≤ bsize
    let partition :=
      if must_split then PartitionType.PARTITION_SPLIT
      else if min_partition_size < bsize then rdo_part
      else PartitionType.PARTITION_NONE
    let _ ← assertP (bsize.width_mi = bsize.height_mi)
    let _ ← assertP (PartitionType.PARTITION_NONE ≤ partition ∧
      partition < PartitionType.PARTITION_INVALID)
    let acts0 :=
      if BlockSize.BLOCK_8X8 ≤ bsize then [WalkAction.write_partition partition] else []
    let acts1 ←
      match partition with
      | PartitionType.PARTITION_NONE => pure (acts0 ++ [WalkAction.encode_leaf])
      | PartitionType.PARTITION_SPLIT => pure (acts0 ++ [WalkAction.recurse_split])
      | _ => none
    pure { partition := partition,
           actions := acts1 ++
             (if BlockSize.BLOCK_8X8 ≤ bsize ∧
                 (bsize = BlockSize.BLOCK_8X8 ∨ partition ≠ PartitionType.PARTITION_SPLIT) then
               [WalkAction.update_ctx] else []) }

/-! ## Theorems -/

theorem beBits_length (n v : Nat) : (beBits n v).length = n := by
  simp [beBits]

theorem byteAlignBits_length_mod (l : List Bool) : (byteAlignBits l).length % 8 = 0 := by
  simp only [byteAlignBits, List.length_append, List.length_replicate]
  omega

theorem byteAlignBits_of_aligned (l : List Bool) (h : l.length % 8 = 0) :
    byteAlignBits l = l := by
  simp [byteAlignBits, h]

/-- C4: for every speed, FrameInvariants::new sets min_partition_size to
BLOCK_4X4 at speeds 0 and 1, BLOCK_8X8 at speed 2, BLOCK_16X16 at speed 3,
and BLOCK_32X32 at speed 4 and above (stated for the claim's range 0..=10,
though speed is not otherwise restricted). -/
theorem C4_min_partition_ladder (w h q s : Nat) (hs : s ≤ 10) :
    ((s = 0 ∨ s = 1) → (FrameInvariants.new w h q s).min_partition_size = BlockSize.BLOCK_4X4) ∧
    (s = 2 → (FrameInvariants.new w h q s).min_partition_size = BlockSize.BLOCK_8X8) ∧
    (s = 3 → (FrameInvariants.new w h q s).min_partition_size = BlockSize.BLOCK_16X16) ∧
    (4 ≤ s → (FrameInvariants.new w h q s).min_partition_size = BlockSize.BLOCK_32X32) := by
  have hnew : (FrameInvariants.new w h q s).min_partition_size =
      (if s ≤ 1 then BlockSize.BLOCK_4X4 else if s ≤ 2 then BlockSize.BLOCK_8X8
       else if s ≤ 3 then BlockSize.BLOCK_16X16 else BlockSize.BLOCK_32X32) := rfl
  refine ⟨fun h1 => ?_, fun h2 => ?_, fun h3 => ?_, fun h4 => ?_⟩
  · rw [hnew, if_pos (by omega)]
  · rw [hnew, if_neg (by omega), if_pos (by omega)]
  · rw [hnew, if_neg (by omega), if_neg (by omega), if_pos (by omega)]
  · rw [hnew, if_neg (by omega), if_neg (by omega), if_neg (by omega)]

theorem C4_min_partition_ladder_witness :
    2 ≤ 10 ∧ (FrameInvariants.new 64 64 100 2).min_partition_size = BlockSize.BLOCK_8X8 :=
  ⟨by decide, (C4_min_partition_ladder 64 64 100 2 (by decide)).2.1 rfl⟩

/-- C2: encode_tx_block with skip = true leaves the reconstruction plane equal
to the predictor output for the given mode and tx_size and returns the context
writer unchanged: the residual, transform, quantize and coefficient-coding
steps are not executed. -/
theorem C2_skip_reconstruction {CW : Type} (K : TxKernels CW) (fi : FrameInvariants)
    (inputPlane recPlane : Plane) (cw : CW) (p : Nat) (bo : BlockOffset)
    (mode : PredictionMode) (tx_size : TxSize) (tx_type : TxType)
    (plane_bsize : BlockSize) (po : PlaneOffset) (xdec ydec : Nat) :
    encode_tx_block K fi inputPlane recPlane cw p bo mode tx_size tx_type plane_bsize
        po true xdec ydec =
      { rec_plane := K.predict mode tx_size po recPlane, cw := cw } := rfl

/-- C5: in encode_block the luma transform type is taken from
rdo_tx_type_decision exactly when the transform-set type exceeds
EXT_TX_SET_DCTONLY and speed ≤ 3, and is DCT_DCT in every other case. -/
theorem C5_tx_type_gate (get_ext_tx_set_type : TxSize → Bool → Bool → TxSetType)
    (rdo_tx_type : TxType) (fi : FrameInvariants) (bsize : BlockSize) (is_inter : Bool) :
    (TxSetType.EXT_TX_SET_DCTONLY <
        get_ext_tx_set_type (encode_block_tx_size bsize) is_inter fi.use_reduced_tx_set ∧
        fi.speed ≤ 3 →
      encode_block_tx_type get_ext_tx_set_type rdo_tx_type fi bsize is_inter = rdo_tx_type) ∧
    (¬ (TxSetType.EXT_TX_SET_DCTONLY <
        get_ext_tx_set_type (encode_block_tx_size bsize) is_inter fi.use_reduced_tx_set ∧
        fi.speed ≤ 3) →
      encode_block_tx_type get_ext_tx_set_type rdo_tx_type fi bsize is_inter =
        TxType.DCT_DCT) := by
  constructor <;> intro hcond <;> simp only [encode_block_tx_type]
  · rw [if_pos hcond]
  · rw [if_neg hcond]

theorem C5_tx_type_gate_witness :
    encode_block_tx_type (fun _ _ _ => TxSetType.EXT_TX_SET_ALL16) TxType.ADST_ADST
      (FrameInvariants.new 64 64 100 0) BlockSize.BLOCK_8X8 false = TxType.ADST_ADST :=
  (C5_tx_type_gate (fun _ _ _ => TxSetType.EXT_TX_SET_ALL16) TxType.ADST_ADST
    (FrameInvariants.new 64 64 100 0) BlockSize.BLOCK_8X8 false).1 (by decide)

theorem header_before_none_of_assert (sequence : Sequence) (fi : FrameInvariants)
    (hkey : fi.frame_type = FrameType.KEY ∨ fi.frame_type = FrameType.INTRA_ONLY)
    (hio : fi.intra_only = false) :
    header_bits_before_reduced_tx sequence fi = none := by
  unfold header_bits_before_reduced_tx
  rcases hkey with hk | hk <;> simp [assertP, hk, hio]

/-- C1 (amended): the key/intra-only assertion of write_uncompressed_header is
exactly the implication "frame_type ∈ {KEY, INTRA_ONLY} → intra_only": a frame
violating it aborts the header writer. FrameInvariants::new does not establish
the invariant — it returns frame_type KEY with intra_only false for every
argument, so the writer aborts on new's unmodified output; establishing
intra_only is an obligation on the caller. -/
theorem C1_intra_only_assertion (subexp : Nat → Nat → Int → Int → List Bool)
    (sequence : Sequence) (fi : FrameInvariants) (w h q s : Nat)
    (hsef : fi.show_existing_frame = false)
    (hkey : fi.frame_type = FrameType.KEY ∨ fi.frame_type = FrameType.INTRA_ONLY)
    (hio : fi.intra_only = false) :
    write_uncompressed_header subexp sequence fi = none ∧
    (FrameInvariants.new w h q s).frame_type = FrameType.KEY ∧
    (FrameInvariants.new w h q s).intra_only = false := by
  refine ⟨?_, rfl, rfl⟩
  unfold write_uncompressed_header
  simp [hsef, header_before_none_of_assert sequence fi hkey hio]

theorem C1_intra_only_assertion_witness :
    write_uncompressed_header (fun _ _ _ _ => []) Sequence.new
      { FrameInvariants.new 64 64 100 3 with frame_type := FrameType.INTRA_ONLY } = none ∧
    (FrameInvariants.new 2 2 2 2).frame_type = FrameType.KEY ∧
    (FrameInvariants.new 2 2 2 2).intra_only = false :=
  C1_intra_only_assertion (fun _ _ _ _ => []) Sequence.new
    { FrameInvariants.new 64 64 100 3 with frame_type := FrameType.INTRA_ONLY }
    2 2 2 2 rfl (Or.inr rfl) rfl

/-- C1 counterexample: FrameInvariants::new(64, 64, 100, 3) has frame_type KEY
and intra_only false, falsifying the claimed invariant as well as the claim
that new's output passes the assertion: write_uncompressed_header aborts on it. -/
theorem C1_counterexample :
    (FrameInvariants.new 64 64 100 3).frame_type = FrameType.KEY ∧
    (FrameInvariants.new 64 64 100 3).intra_only = false ∧
    write_uncompressed_header (fun _ _ _ _ => []) Sequence.new
      (FrameInvariants.new 64 64 100 3) = none :=
  ⟨rfl, rfl, by rfl⟩

/-- C7: every successful return of write_uncompressed_header is byte-aligned;
a show_existing_frame header is exactly marker(2 bits, 0b10), profile(2),
flag(1), frame slot(3), already byte-aligned — 8 bits, at most 2 bytes — and
encode_frame appends no tile bits for such a frame. -/
theorem C7_header_byte_alignment (subexp : Nat → Nat → Int → Int → List Bool)
    (sequence : Sequence) (fi : FrameInvariants) (tile : List Bool) :
    (∀ bits, write_uncompressed_header subexp sequence fi = some bits →
       bits.length % 8 = 0) ∧
    (fi.show_existing_frame = true →
       write_uncompressed_header subexp sequence fi =
         some (beBits 2 2 ++ beBits 2 sequence.profile ++ [true] ++ beBits 3 0) ∧
       (beBits 2 2 ++ beBits 2 sequence.profile ++ [true] ++ beBits 3 0).length = 8 ∧
       encode_frame_bits subexp tile sequence fi =
         write_uncompressed_header subexp sequence fi) := by
  have hlen8 : (beBits 2 2 ++ beBits 2 sequence.profile ++ [true] ++ beBits 3 0).length = 8 := by
    simp [beBits_length]
  constructor
  · intro bits hb
    unfold write_uncompressed_header at hb
    by_cases hsef : fi.show_existing_frame = true
    · rw [if_pos hsef] at hb
      have : bits = byteAlignBits (beBits 2 2 ++ beBits 2 sequence.profile ++ [true] ++
          beBits 3 0) := by
        exact (Option.some.injEq _ _).mp hb.symm
      rw [this]
      exact byteAlignBits_length_mod _
    · rw [if_neg hsef] at hb
      cases hpre : header_bits_before_reduced_tx sequence fi with
      | none => rw [hpre] at hb; simp at hb
      | some pre =>
        cases hpost : header_bits_after_reduced_tx subexp fi with
        | none => rw [hpre, hpost] at hb; simp at hb
        | some post =>
          rw [hpre, hpost] at hb
          simp at hb
          rw [← hb]
          exact byteAlignBits_length_mod _
  · intro hsef
    have hdr : write_uncompressed_header subexp sequence fi =
        some (beBits 2 2 ++ beBits 2 sequence.profile ++ [true] ++ beBits 3 0) := by
      unfold write_uncompressed_header
      rw [if_pos hsef, byteAlignBits_of_aligned _ (by rw [hlen8])]
    refine ⟨hdr, hlen8, ?_⟩
    unfold encode_frame_bits
    rw [hdr]
    simp [hsef]

theorem C7_header_byte_alignment_witness :
    ({ FrameInvariants.new 64 64 100 3 with
        show_existing_frame := true } : FrameInvariants).show_existing_frame = true ∧
    write_uncompressed_header (fun _ _ _ _ => []) Sequence.new
      { FrameInvariants.new 64 64 100 3 with show_existing_frame := true } =
      some (beBits 2 2 ++ beBits 2 Sequence.new.profile ++ [true] ++ beBits 3 0) :=
  ⟨rfl, ((C7_header_byte_alignment (fun _ _ _ _ => []) Sequence.new
    { FrameInvariants.new 64 64 100 3 with show_existing_frame := true } []).2 rfl).1⟩

/-- C9: FrameInvariants::new enables the reduced transform set exactly for
speed > 1; that one field is both the header's reduced-tx bit — the bit sitting
between the bits written before lib.rs:481 and the global-motion section — and
the flag encode_block's transform-type gate passes to get_ext_tx_set_type. -/
theorem C9_reduced_tx_set (w h q s : Nat) (subexp : Nat → Nat → Int → Int → List Bool)
    (sequence : Sequence) (fi : FrameInvariants) (bits : List Bool)
    (get_ext_tx_set_type : TxSize → Bool → Bool → TxSetType) (rdo_tx_type : TxType)
    (bsize : BlockSize) (is_inter : Bool)
    (hsef : fi.show_existing_frame = false)
    (hok : write_uncompressed_header subexp sequence fi = some bits) :
    (FrameInvariants.new w h q s).use_reduced_tx_set = decide (1 < s) ∧
    (∃ pre post, header_bits_before_reduced_tx sequence fi = some pre ∧
        bits = pre ++ fi.use_reduced_tx_set :: post) ∧
    encode_block_tx_type get_ext_tx_set_type rdo_tx_type fi bsize is_inter =
      (if TxSetType.EXT_TX_SET_DCTONLY <
            get_ext_tx_set_type (encode_block_tx_size bsize) is_inter
              fi.use_reduced_tx_set ∧ fi.speed ≤ 3
       then rdo_tx_type else TxType.DCT_DCT) := by
  refine ⟨rfl, ?_, rfl⟩
  unfold write_uncompressed_header at hok
  rw [if_neg (by simp [hsef])] at hok
  cases hpre : header_bits_before_reduced_tx sequence fi with
  | none => rw [hpre] at hok; simp at hok
  | some pre =>
    cases hpost : header_bits_after_reduced_tx subexp fi with
    | none => rw [hpre, hpost] at hok; simp at hok
    | some post0 =>
      rw [hpre, hpost] at hok
      simp at hok
      refine ⟨pre, post0 ++ List.replicate
        ((8 - (pre ++ fi.use_reduced_tx_set :: post0).length % 8) % 8) false, rfl, ?_⟩
      rw [← hok]
      simp [byteAlignBits, List.append_assoc]

theorem C9_reduced_tx_set_witness :
    (FrameInvariants.new 64 64 100 2).use_reduced_tx_set = decide (1 < 2) :=
  (C9_reduced_tx_set 64 64 100 2 (fun _ _ _ _ => []) Sequence.new
    { FrameInvariants.new 64 64 100 2 with intra_only := true }
    ((write_uncompressed_header (fun _ _ _ _ => []) Sequence.new
      { FrameInvariants.new 64 64 100 2 with intra_only := true }).getD [])
    (fun _ _ _ => TxSetType.EXT_TX_SET_DCTONLY) TxType.DCT_DCT BlockSize.BLOCK_8X8 false
    rfl (by rfl)).1

theorem bitLenAux_le_self (k v : Nat) : bitLenAux k v ≤ k := by
  induction k with
  | zero => simp [bitLenAux]
  | succ k ih =>
    unfold bitLenAux
    split
    · exact Nat.le_refl _
    · exact Nat.le_trans ih (Nat.le_succ k)

theorem bitLenAux_le_iff (k v m : Nat) (hv : v < 2 ^ k) (hm : m ≤ k) :
    bitLenAux k v ≤ m ↔ v < 2 ^ m := by
  induction k with
  | zero =>
    rw [pow_zero] at hv
    have hv0 : v = 0 := by omega
    have hm0 : m = 0 := Nat.le_zero.mp hm
    subst hv0
    subst hm0
    simp [bitLenAux]
  | succ k ih =>
    unfold bitLenAux
    have hsh : (1 : Nat) <<< k = 2 ^ k := by rw [Nat.shiftLeft_eq, one_mul]
    rw [hsh]
    by_cases hb : 2 ^ k ≤ v
    · rw [if_pos hb]
      constructor
      · intro h1
        have hmk : m = k + 1 := by omega
        subst hmk
        exact hv
      · intro h1
        have : (2 : Nat) ^ k < 2 ^ m := Nat.lt_of_le_of_lt hb h1
        have : k < m := (Nat.pow_lt_pow_iff_right (by omega)).mp this
        omega
    · rw [if_neg hb]
      push_neg at hb
      by_cases hmk : m ≤ k
      · exact ih hb hmk
      · have hmk1 : m = k + 1 := by omega
        subst hmk1
        constructor
        · intro _
          exact hv
        · intro _
          exact Nat.le_trans (bitLenAux_le_self k v) (Nat.le_succ k)

theorem u32_bits_le_iff (x : Nat) :
    (u32_bits x ≤ 16 ∧ u32_bits x ≠ 0) ↔ (1 ≤ x % 2 ^ 32 ∧ x % 2 ^ 32 ≤ 65535) := by
  have hv : x % 2 ^ 32 < 2 ^ 32 := Nat.mod_lt _ (by norm_num)
  have h16 := bitLenAux_le_iff 32 (x % 2 ^ 32) 16 hv (by omega)
  have h0 := bitLenAux_le_iff 32 (x % 2 ^ 32) 0 hv (by omega)
  unfold u32_bits
  have e16 : (2 : Nat) ^ 16 = 65536 := by norm_num
  have e0 : (2 : Nat) ^ 0 = 1 := by norm_num
  rw [e16] at h16
  rw [e0] at h0
  omega

theorem write_frame_size_isSome_iff (fi : FrameInvariants) :
    (write_frame_size fi).isSome = true ↔
      (u32_bits fi.width ≤ 16 ∧ u32_bits fi.height ≤ 16 ∧
       u32_bits fi.width ≠ 0 ∧ u32_bits fi.height ≠ 0) := by
  by_cases c1 : u32_bits fi.width ≤ 16 <;> by_cases c2 : u32_bits fi.height ≤ 16 <;>
    by_cases c3 : u32_bits fi.width = 0 <;> by_cases c4 : u32_bits fi.height = 0 <;>
    simp [write_frame_size, assertP, c1, c2, c3, c4]

/-- C10 (amended): write_frame_size succeeds exactly when both dimensions,
reduced mod 2^32 by the `as u32` cast, lie in 1..=65535. For dimensions below
2^32 this is the claim's 1..=65535 precondition; a dimension ≥ 2^32 whose low
32 bits land in the range slips through the truncating cast, so the claim's
"aborts for width ≥ 65536" is not exact. -/
theorem C10_frame_size_precondition (w h q s : Nat) :
    (write_frame_size (FrameInvariants.new w h q s)).isSome = true ↔
      (1 ≤ w % 2 ^ 32 ∧ w % 2 ^ 32 ≤ 65535 ∧ 1 ≤ h % 2 ^ 32 ∧ h % 2 ^ 32 ≤ 65535) := by
  rw [write_frame_size_isSome_iff]
  have hw : (FrameInvariants.new w h q s).width = w := rfl
  have hh : (FrameInvariants.new w h q s).height = h := rfl
  rw [hw, hh]
  have h1 := u32_bits_le_iff w
  have h2 := u32_bits_le_iff h
  tauto

/-- C10 counterexample: width 2^32 + 1 is ≥ 65536, where the claim demands an
abort, yet write_frame_size succeeds: the `as u32` cast truncates the width
to 1 before the bit-length assertions run. -/
theorem C10_counterexample :
    (write_frame_size (FrameInvariants.new (2 ^ 32 + 1) 64 100 3)).isSome = true ∧
    ¬ (2 ^ 32 + 1 ≤ 65535) := by
  refine ⟨by rfl, by norm_num⟩

theorem land_usizeNot_eq (x n : Nat) (hx : x < 2 ^ 64) (hn : n ≤ 64) :
    x &&& usizeNot ((1 <<< n) - 1) = (x >>> n) <<< n := by
  have h1 : (1 : Nat) <<< n = 2 ^ n := by rw [Nat.shiftLeft_eq, one_mul]
  have hmask : usizeNot ((1 <<< n) - 1) = (2 ^ 64 - 1) ^^^ (2 ^ n - 1) := by
    unfold usizeNot USIZE_MOD
    rw [h1]
  apply Nat.eq_of_testBit_eq
  intro i
  rw [hmask, Nat.testBit_and, Nat.testBit_xor, Nat.testBit_two_pow_sub_one,
    Nat.testBit_two_pow_sub_one, Nat.testBit_shiftLeft, Nat.testBit_shiftRight]
  by_cases hi64 : i < 64
  · by_cases hin : i < n
    · have hni : ¬ (i ≥ n) := by omega
      simp [hi64, hin, hni]
    · have hni : i ≥ n := by omega
      have hidx : n + (i - n) = i := by omega
      simp [hi64, hin, hni, hidx]
  · have hxi : x.testBit i = false := Nat.testBit_lt_two_pow (by
      calc x < 2 ^ 64 := hx
        _ ≤ 2 ^ i := Nat.pow_le_pow_right (by omega) (by omega))
    have hin : ¬ i < n := by omega
    have hni : i ≥ n := by omega
    have hidx : n + (i - n) = i := by omega
    simp [hi64, hin, hxi, hni, hidx]

theorem align_power_of_two_eq (s n : Nat) (hn : n ≤ 64)
    (hov : s + 2 ^ n - 1 < 2 ^ 64) :
    align_power_of_two s n = (s + 2 ^ n - 1) / 2 ^ n * 2 ^ n := by
  have h1 : (1 : Nat) <<< n = 2 ^ n := by rw [Nat.shiftLeft_eq, one_mul]
  have hpos : 0 < 2 ^ n := Nat.two_pow_pos n
  have hsum : s + ((1 <<< n) - 1) = s + 2 ^ n - 1 := by rw [h1]; omega
  unfold align_power_of_two ceil_log2 floor_log2
  rw [hsum, show USIZE_MOD = 2 ^ 64 from rfl, Nat.mod_eq_of_lt hov,
    land_usizeNot_eq _ _ hov hn, Nat.shiftRight_eq_div_pow, Nat.shiftLeft_eq]

theorem align_least_multiple (s n : Nat) (hn : n ≤ 64) (hov : s + 2 ^ n - 1 < 2 ^ 64) :
    2 ^ n ∣ align_power_of_two s n ∧ s ≤ align_power_of_two s n ∧
      ∀ m, 2 ^ n ∣ m → s ≤ m → align_power_of_two s n ≤ m := by
  have hpos : 0 < 2 ^ n := Nat.two_pow_pos n
  rw [align_power_of_two_eq s n hn hov]
  have hdm := Nat.div_add_mod (s + 2 ^ n - 1) (2 ^ n)
  have hmlt : (s + 2 ^ n - 1) % 2 ^ n < 2 ^ n := Nat.mod_lt _ hpos
  have hcm : (s + 2 ^ n - 1) / 2 ^ n * 2 ^ n = 2 ^ n * ((s + 2 ^ n - 1) / 2 ^ n) :=
    Nat.mul_comm _ _
  refine ⟨⟨(s + 2 ^ n - 1) / 2 ^ n, hcm⟩, by omega, ?_⟩
  intro m hdvd hsm
  obtain ⟨j, hj⟩ := hdvd
  have hlt : (s + 2 ^ n - 1) / 2 ^ n < j + 1 := by
    rw [Nat.div_lt_iff_lt_mul hpos]
    have hexp : (j + 1) * 2 ^ n = j * 2 ^ n + 2 ^ n := by ring
    have hjc : j * 2 ^ n = 2 ^ n * j := Nat.mul_comm _ _
    omega
  have hle : (s + 2 ^ n - 1) / 2 ^ n ≤ j := by omega
  calc (s + 2 ^ n - 1) / 2 ^ n * 2 ^ n ≤ j * 2 ^ n := Nat.mul_le_mul_right _ hle
    _ = 2 ^ n * j := Nat.mul_comm _ _
    _ = m := hj.symm

theorem align_shift_ceil (s n : Nat) (_hn : n ≤ 64) (hov : s + 2 ^ n - 1 < 2 ^ 64) :
    align_power_of_two_and_shift s n = (s + 2 ^ n - 1) / 2 ^ n ∧
      s ≤ 2 ^ n * align_power_of_two_and_shift s n ∧
      ∀ m, s ≤ 2 ^ n * m → align_power_of_two_and_shift s n ≤ m := by
  have hpos : 0 < 2 ^ n := Nat.two_pow_pos n
  have h1 : (1 : Nat) <<< n = 2 ^ n := by rw [Nat.shiftLeft_eq, one_mul]
  have hsum : s + ((1 <<< n) - 1) = s + 2 ^ n - 1 := by rw [h1]; omega
  have heq : align_power_of_two_and_shift s n = (s + 2 ^ n - 1) / 2 ^ n := by
    unfold align_power_of_two_and_shift
    rw [hsum, show USIZE_MOD = 2 ^ 64 from rfl, Nat.mod_eq_of_lt hov,
      Nat.shiftRight_eq_div_pow]
  refine ⟨heq, ?_, ?_⟩
  · rw [heq]
    have hdm := Nat.div_add_mod (s + 2 ^ n - 1) (2 ^ n)
    have hmlt : (s + 2 ^ n - 1) % 2 ^ n < 2 ^ n := Nat.mod_lt _ hpos
    omega
  · intro m hm
    rw [heq]
    have hlt : (s + 2 ^ n - 1) / 2 ^ n < m + 1 := by
      rw [Nat.div_lt_iff_lt_mul hpos]
      have hexp : (m + 1) * 2 ^ n = m * 2 ^ n + 2 ^ n := by ring
      have hmc : m * 2 ^ n = 2 ^ n * m := Nat.mul_comm _ _
      omega
    omega

/-- C8: align_power_of_two(n, k) is the least multiple of 2^k that is ≥ n and
align_power_of_two_and_shift(n, k) is ⌈n / 2^k⌉ (absent usize overflow); and
FrameInvariants::new's padded_w/padded_h are the least multiples of 8 ≥
width/height while sb_width/sb_height are ⌈width/64⌉ and ⌈height/64⌉
(characterized as the least counts of 64-pixel superblocks covering each
dimension). -/
theorem C8_alignment_arithmetic (s k w h q sp : Nat) (hk : k ≤ 64)
    (hs : s + 2 ^ k - 1 < 2 ^ 64) (hw : w + 63 < 2 ^ 64) (hh : h + 63 < 2 ^ 64) :
    (2 ^ k ∣ align_power_of_two s k ∧ s ≤ align_power_of_two s k ∧
       ∀ m, 2 ^ k ∣ m → s ≤ m → align_power_of_two s k ≤ m) ∧
    (align_power_of_two_and_shift s k = (s + 2 ^ k - 1) / 2 ^ k ∧
       s ≤ 2 ^ k * align_power_of_two_and_shift s k ∧
       ∀ m, s ≤ 2 ^ k * m → align_power_of_two_and_shift s k ≤ m) ∧
    ((FrameInvariants.new w h q sp).padded_w = align_power_of_two w 3 ∧
       8 ∣ (FrameInvariants.new w h q sp).padded_w ∧
       w ≤ (FrameInvariants.new w h q sp).padded_w ∧
       ∀ m, 8 ∣ m → w ≤ m → (FrameInvariants.new w h q sp).padded_w ≤ m) ∧
    ((FrameInvariants.new w h q sp).padded_h = align_power_of_two h 3 ∧
       8 ∣ (FrameInvariants.new w h q sp).padded_h ∧
       h ≤ (FrameInvariants.new w h q sp).padded_h ∧
       ∀ m, 8 ∣ m → h ≤ m → (FrameInvariants.new w h q sp).padded_h ≤ m) ∧
    ((FrameInvariants.new w h q sp).sb_width = (w + 63) / 64 ∧
       w ≤ 64 * (FrameInvariants.new w h q sp).sb_width ∧
       ∀ m, w ≤ 64 * m → (FrameInvariants.new w h q sp).sb_width ≤ m) ∧
    ((FrameInvariants.new w h q sp).sb_height = (h + 63) / 64 ∧
       h ≤ 64 * (FrameInvariants.new w h q sp).sb_height ∧
       ∀ m, h ≤ 64 * m → (FrameInvariants.new w h q sp).sb_height ≤ m) := by
  have h23 : (2 : Nat) ^ 3 = 8 := by norm_num
  have h26 : (2 : Nat) ^ 6 = 64 := by norm_num
  have hw8 : w + 2 ^ 3 - 1 < 2 ^ 64 := by rw [h23]; omega
  have hh8 : h + 2 ^ 3 - 1 < 2 ^ 64 := by rw [h23]; omega
  have hw64 : w + 2 ^ 6 - 1 < 2 ^ 64 := by rw [h26]; omega
  have hh64 : h + 2 ^ 6 - 1 < 2 ^ 64 := by rw [h26]; omega
  have hpw : (FrameInvariants.new w h q sp).padded_w = align_power_of_two w 3 := rfl
  have hph : (FrameInvariants.new w h q sp).padded_h = align_power_of_two h 3 := rfl
  have hsw : (FrameInvariants.new w h q sp).sb_width = align_power_of_two_and_shift w 6 := rfl
  have hsh : (FrameInvariants.new w h q sp).sb_height = align_power_of_two_and_shift h 6 := rfl
  obtain ⟨w1, w2, w3⟩ := align_least_multiple w 3 (by omega) hw8
  obtain ⟨g1, g2, g3⟩ := align_least_multiple h 3 (by omega) hh8
  obtain ⟨u1, u2, u3⟩ := align_shift_ceil w 6 (by omega) hw64
  obtain ⟨v1, v2, v3⟩ := align_shift_ceil h 6 (by omega) hh64
  rw [h23] at w1 w3 g1 g3
  rw [h26] at u1 u2 u3 v1 v2 v3
  refine ⟨align_least_multiple s k hk hs, align_shift_ceil s k hk hs,
    ⟨hpw, by rw [hpw]; exact w1, by rw [hpw]; exact w2, by rw [hpw]; exact w3⟩,
    ⟨hph, by rw [hph]; exact g1, by rw [hph]; exact g2, by rw [hph]; exact g3⟩,
    ⟨by rw [hsw]; exact u1, by rw [hsw]; exact u2, by rw [hsw]; exact u3⟩,
    ⟨by rw [hsh]; exact v1, by rw [hsh]; exact v2, by rw [hsh]; exact v3⟩⟩

theorem C8_alignment_arithmetic_witness :
    (130 : Nat) + 63 < 2 ^ 64 ∧
    (FrameInvariants.new 130 70 100 3).padded_w = align_power_of_two 130 3 ∧
    8 ∣ (FrameInvariants.new 130 70 100 3).padded_w ∧
    130 ≤ (FrameInvariants.new 130 70 100 3).padded_w := by
  have h := C8_alignment_arithmetic 130 3 130 70 100 3 (by norm_num) (by norm_num)
    (by norm_num) (by norm_num)
  exact ⟨by norm_num, h.2.2.1.1, h.2.2.1.2.1, h.2.2.1.2.2.1⟩

/-- C3 (amended): every chroma call of write_tx_blocks receives the offset
bo + ((bx * uv_tx_size.width_mi()) << xdec) minus 1 exactly when
bw * tx_size.width_mi() = 1 — i.e. the luma block spans a single one-MI-wide
(4-pixel) TX column — with the y analogue; the claim's condition "luma TX
block count 1" (bw = 1) also covers single TX columns wider than one MI,
where the source subtracts nothing. -/
theorem C3_chroma_offset_correction
    (has_chroma : BlockOffset → BlockSize → Nat → Nat → Bool)
    (bo : BlockOffset) (bsize : BlockSize) (tx_size : TxSize) (xdec ydec : Nat)
    (c : TxCall)
    (hc : c ∈ write_tx_blocks_calls has_chroma bo bsize tx_size xdec ydec)
    (hp : 1 ≤ c.p) :
    (c.x = (bo.x : Int) +
        (((c.bxi * (uv_tx_size_of bsize).width_mi) <<< xdec : Nat) : Int) -
        (if bsize.width_mi / tx_size.width_mi * tx_size.width_mi = 1 then 1 else 0)) ∧
    (c.y = (bo.y : Int) +
        (((c.byi * (uv_tx_size_of bsize).height_mi) <<< ydec : Nat) : Int) -
        (if bsize.height_mi / tx_size.height_mi * tx_size.height_mi = 1 then 1 else 0)) ∧
    (bsize.width_mi / tx_size.width_mi * tx_size.width_mi = 1 ↔
      bsize.width_mi / tx_size.width_mi = 1 ∧ tx_size.width_mi = 1) := by
  have hmul : bsize.width_mi / tx_size.width_mi * tx_size.width_mi = 1 ↔
      bsize.width_mi / tx_size.width_mi = 1 ∧ tx_size.width_mi = 1 := by
    constructor
    · intro hab
      have ha : bsize.width_mi / tx_size.width_mi ∣ 1 := ⟨tx_size.width_mi, hab.symm⟩
      have hb : tx_size.width_mi ∣ 1 :=
        ⟨bsize.width_mi / tx_size.width_mi, by rw [Nat.mul_comm] at hab; exact hab.symm⟩
      exact ⟨Nat.dvd_one.mp ha, Nat.dvd_one.mp hb⟩
    · rintro ⟨h1, h2⟩
      rw [h1, h2]
  simp only [write_tx_blocks_calls, List.mem_append, List.mem_flatMap, List.mem_map,
    List.mem_range] at hc
  rcases hc with hluma | hchroma
  · obtain ⟨byi, _, bxi, _, hceq⟩ := hluma
    rw [← hceq] at hp
    simp at hp
  · have hmul2 : bsize.height_mi / tx_size.height_mi * tx_size.height_mi = 1 ↔
        bsize.height_mi / tx_size.height_mi = 1 ∧ tx_size.height_mi = 1 := by
      constructor
      · intro hab
        have ha : bsize.height_mi / tx_size.height_mi ∣ 1 := ⟨tx_size.height_mi, hab.symm⟩
        have hb : tx_size.height_mi ∣ 1 :=
          ⟨bsize.height_mi / tx_size.height_mi, by rw [Nat.mul_comm] at hab; exact hab.symm⟩
        exact ⟨Nat.dvd_one.mp ha, Nat.dvd_one.mp hb⟩
      · rintro ⟨h1, h2⟩
        rw [h1, h2]
    split at hchroma <;> split at hchroma
    all_goals
      first
      | exact absurd hchroma (List.not_mem_nil c)
      | (simp only [List.mem_flatMap, List.mem_map, List.mem_range] at hchroma
         obtain ⟨pi, hpi, byi, hbyi, bxi, hbxi, hceq⟩ := hchroma
         subst hceq
         exact ⟨by simp only [hmul], by simp only [hmul2], hmul⟩)

/-- C3 counterexample: for an 8x8 luma block with an 8x8 transform the luma TX
column count bw is 1, so the claim requires the chroma offsets to subtract 1,
yet the source subtracts nothing: its condition is
bw * tx_size.width_mi() == 1, which equals 2 here. -/
theorem C3_counterexample :
    write_tx_blocks_calls (fun _ _ _ _ => true) { x := 0, y := 0 }
        BlockSize.BLOCK_8X8 TxSize.TX_8X8 1 1 =
      [{ p := 0, bxi := 0, byi := 0, x := 0, y := 0 },
       { p := 1, bxi := 0, byi := 0, x := 0, y := 0 },
       { p := 2, bxi := 0, byi := 0, x := 0, y := 0 }] ∧
    BlockSize.BLOCK_8X8.width_mi / TxSize.TX_8X8.width_mi = 1 ∧
    ((0 : Int) ≠ (0 : Int) +
        (((0 * (uv_tx_size_of BlockSize.BLOCK_8X8).width_mi) <<< 1 : Nat) : Int) - 1) := by
  refine ⟨by decide, by decide, by decide⟩

theorem C3_chroma_offset_correction_witness :
    ((0 : Int) = ((1 : Nat) : Int) +
      (((0 * (uv_tx_size_of BlockSize.BLOCK_4X4).width_mi) <<< 1 : Nat) : Int) -
      (if BlockSize.BLOCK_4X4.width_mi / TxSize.TX_4X4.width_mi *
          TxSize.TX_4X4.width_mi = 1 then 1 else 0)) :=
  (C3_chroma_offset_correction (fun _ _ _ _ => true) { x := 1, y := 1 }
    BlockSize.BLOCK_4X4 TxSize.TX_4X4 1 1 { p := 1, bxi := 0, byi := 0, x := 0, y := 0 }
    (by decide) (by decide)).1

theorem mem_append_ite_nil {α : Type} (a : α) (l : List α) (P : Prop) [Decidable P]
    (h : a ∉ l) : (a ∈ l ++ (if P then [a] else [])) ↔ P := by
  by_cases hP : P <;> simp [hP, h]

theorem mem_ite_singleton {α : Type} (a b : α) (P : Prop) [Decidable P] :
    (a ∈ (if P then [b] else [])) ↔ (P ∧ a = b) := by
  by_cases hP : P <;> simp [hP]

theorem PartitionType.le_iff (a b : PartitionType) : a ≤ b ↔ a.toIdx ≤ b.toIdx := Iff.rfl

theorem PartitionType.lt_iff (a b : PartitionType) : a < b ↔ a.toIdx < b.toIdx := Iff.rfl

/-- C6: for an in-grid block offset, both partition walkers call
update_partition_context exactly when bsize ≥ 8x8 and (bsize = 8x8 or the
final partition is not SPLIT); and the bottom-up walker's final partition
variable is SPLIT exactly when the split variant was kept — it recursed into
a split and did not re-encode the unsplit block. -/
theorem C6_update_partition_context (cols rows w_in_b h_in_b : Nat)
    (min_partition_size bsize : BlockSize) (bo : BlockOffset)
    (mode_rd c1 c2 c3 c4 : Rat) (rdo_part : PartitionType) (td : TopdownResult)
    (hx : bo.x < cols) (hy : bo.y < rows) :
    (WalkAction.update_ctx ∈ (encode_partition_bottomup cols rows w_in_b h_in_b
        min_partition_size bsize bo mode_rd c1 c2 c3 c4).actions ↔
      (BlockSize.BLOCK_8X8 ≤ bsize ∧ (bsize = BlockSize.BLOCK_8X8 ∨
        (encode_partition_bottomup cols rows w_in_b h_in_b min_partition_size bsize bo
          mode_rd c1 c2 c3 c4).partition ≠ PartitionType.PARTITION_SPLIT))) ∧
    (((encode_partition_bottomup cols rows w_in_b h_in_b min_partition_size bsize bo
          mode_rd c1 c2 c3 c4).partition = PartitionType.PARTITION_NONE ∨
        (encode_partition_bottomup cols rows w_in_b h_in_b min_partition_size bsize bo
          mode_rd c1 c2 c3 c4).partition = PartitionType.PARTITION_SPLIT) ∧
      ((encode_partition_bottomup cols rows w_in_b h_in_b min_partition_size bsize bo
          mode_rd c1 c2 c3 c4).partition = PartitionType.PARTITION_SPLIT ↔
        (WalkAction.recurse_split ∈ (encode_partition_bottomup cols rows w_in_b h_in_b
            min_partition_size bsize bo mode_rd c1 c2 c3 c4).actions ∧
          WalkAction.recode_leaf ∉ (encode_partition_bottomup cols rows w_in_b h_in_b
            min_partition_size bsize bo mode_rd c1 c2 c3 c4).actions))) ∧
    (encode_partition_topdown cols rows w_in_b h_in_b min_partition_size bsize bo
        rdo_part = some td →
      (WalkAction.update_ctx ∈ td.actions ↔
        (BlockSize.BLOCK_8X8 ≤ bsize ∧ (bsize = BlockSize.BLOCK_8X8 ∨
          td.partition ≠ PartitionType.PARTITION_SPLIT)))) := by
  have hin : ¬ (cols ≤ bo.x ∨ rows ≤ bo.y) := by omega
  refine ⟨?_, ?_, ?_⟩
  · by_cases hms : w_in_b < bo.x + bsize.width_mi ∨ h_in_b < bo.y + bsize.width_mi ∨
        BlockSize.BLOCK_64X64 ≤ bsize
    · simp [encode_partition_bottomup, hin, hms, mem_append_ite_nil]
    · by_cases hcs : min_partition_size < bsize
      · by_cases hrec : mode_rd < c1 + c2 + c3 + c4
        · by_cases h88 : BlockSize.BLOCK_8X8 ≤ bsize <;>
            simp [encode_partition_bottomup, hin, hms, hcs, hrec, h88, mem_append_ite_nil]
        · by_cases h88 : BlockSize.BLOCK_8X8 ≤ bsize <;>
            simp [encode_partition_bottomup, hin, hms, hcs, hrec, h88, mem_append_ite_nil]
      · by_cases h88 : BlockSize.BLOCK_8X8 ≤ bsize <;>
          simp [encode_partition_bottomup, hin, hms, hcs, h88, mem_append_ite_nil]
  · by_cases hms : w_in_b < bo.x + bsize.width_mi ∨ h_in_b < bo.y + bsize.width_mi ∨
        BlockSize.BLOCK_64X64 ≤ bsize
    · simp [encode_partition_bottomup, hin, hms]
    · by_cases hcs : min_partition_size < bsize
      · by_cases hrec : mode_rd < c1 + c2 + c3 + c4 <;>
          by_cases h88 : BlockSize.BLOCK_8X8 ≤ bsize <;>
          simp [encode_partition_bottomup, hin, hms, hcs, hrec, h88]
      · by_cases h88 : BlockSize.BLOCK_8X8 ≤ bsize <;>
          simp [encode_partition_bottomup, hin, hms, hcs, h88]
  · intro htd
    unfold encode_partition_topdown at htd
    rw [if_neg hin] at htd
    by_cases hsq : bsize.width_mi = bsize.height_mi
    · have hsqT : (bsize.width_mi = bsize.height_mi) = True := eq_true hsq
      by_cases hms : w_in_b < bo.x + bsize.width_mi ∨ h_in_b < bo.y + bsize.width_mi ∨
          BlockSize.BLOCK_64X64 ≤ bsize
      · simp [hms, assertP, hsqT, PartitionType.le_iff, PartitionType.lt_iff,
          PartitionType.toIdx] at htd
        subst htd
        simp [mem_ite_singleton, List.mem_append, List.mem_cons]
      · by_cases hcs : min_partition_size < bsize
        · cases rdo_part
          all_goals simp [hms, hcs, assertP, hsqT, PartitionType.le_iff,
            PartitionType.lt_iff, PartitionType.toIdx] at htd
          all_goals subst htd
          all_goals simp [mem_ite_singleton, List.mem_append, List.mem_cons]
        · simp [hms, hcs, assertP, hsqT, PartitionType.le_iff, PartitionType.lt_iff,
            PartitionType.toIdx] at htd
          subst htd
          simp [mem_ite_singleton, List.mem_append, List.mem_cons]
    · simp [assertP, hsq] at htd

theorem C6_update_partition_context_witness :
    (0 : Nat) < 16 ∧
    (WalkAction.update_ctx ∈ (encode_partition_bottomup 16 16 16 16
        BlockSize.BLOCK_8X8 BlockSize.BLOCK_16X16 { x := 0, y := 0 }
        0 1 1 1 1).actions ↔
      (BlockSize.BLOCK_8X8 ≤ BlockSize.BLOCK_16X16 ∧
        (BlockSize.BLOCK_16X16 = BlockSize.BLOCK_8X8 ∨
          (encode_partition_bottomup 16 16 16 16 BlockSize.BLOCK_8X8
            BlockSize.BLOCK_16X16 { x := 0, y := 0 }
            0 1 1 1 1).partition ≠ PartitionType.PARTITION_SPLIT))) :=
  ⟨by decide,
    (C6_update_partition_context 16 16 16 16 BlockSize.BLOCK_8X8 BlockSize.BLOCK_16X16
      { x := 0, y := 0 } 0 1 1 1 1 PartitionType.PARTITION_NONE
      { partition := PartitionType.PARTITION_NONE, actions := [] }
      (by decide) (by decide)).1⟩

end Rav1e
